import Mathlib

/-!
# kptv-sync — verification of the spec's claims against the source

Shallow embedding of the parts of the `kpirnie/kptv-sync` repository that the
frozen claims talk about:

* `src/sync/filter.py`  — `KP_Filter._match_pattern`, `KP_Filter.filter_streams`
* `src/sync/get.py`     — `KP_Get._parse_m3u`, `KP_Get._parse_extinf_line`,
                          `KP_Get._normalize_data`, `KP_Get.get_streams`
* `src/sync/sync.py`    — `KP_Sync._process_provider`, `KP_Sync._parse_log_file`,
                          `KP_Sync.fix_from_log`
* `src/sync/data.py`    — `KP_Sync_Data._get_filters`, `_cleanup`,
                          `_batch_move_streams_to_other`
* `src/sync/test.py`    — `KP_StreamTester._test_with_http_then_ffprobe`,
                          `_validate_with_ffprobe`
* `src/common/common.py`— URL templates, argument flags

Python dictionaries are embedded as insertion-ordered association lists,
Python strings as Lean `String`, machine integers as `Nat`/`Int`.  The regex
patterns that occur in the program (and in the claims) all lie in the
"alternation of anchored literals" fragment of Python's `regex`/`re` syntax;
`compilePattern` below embeds exactly that fragment and rejects (returns
`none` for) every pattern outside it, mirroring the patterns for which
`re.compile` raises in the cases the claims exercise.
-/

namespace KptvSync

/-! ## String helpers (embedding Python `str` operations) -/
/-- Python `needle in hay` prefix step: `needle` is a prefix of `hay`. -/
def isPrefixL : List Char → List Char → Bool
  | [], _ => true
  | _ :: _, [] => false
  | a :: as, b :: bs => a == b && isPrefixL as bs

/-- Python substring test `needle in hay` on character lists. -/
def containsL (needle : List Char) : List Char → Bool
  | [] => needle.isEmpty
  | c :: t => isPrefixL needle (c :: t) || containsL needle t

/-- Python substring test `needle in hay` on strings. -/
def containsSub (needle hay : String) : Bool :=
  containsL needle.toList hay.toList

/-- Python `s.lower()` on a character list (ASCII case folding). -/
def lowerL (cs : List Char) : List Char :=
  cs.map Char.toLower

/-- Python `s.lower()` as a string-to-chars operation. -/
def lowerS (s : String) : List Char :=
  lowerL s.toList

/-- Python `hay.endswith(suffix)`. -/
def isSuffixL (needle hay : List Char) : Bool :=
  isPrefixL needle.reverse hay.reverse

/-- Python `str.strip()` on a character list. -/
def pyStrip (cs : List Char) : List Char :=
  ((cs.dropWhile Char.isWhitespace).reverse.dropWhile Char.isWhitespace).reverse

/-! ## Decimal rendering (embedding Python `str(int)` / f-string digits)

A fuel-based structural printer so concrete inputs evaluate in the kernel;
fuel `n + 1` always suffices since the argument shrinks by a factor of ten
per step. -/
/-- Decimal digits of `n` (most significant first), with explicit fuel. -/
def natDigitsAux : Nat → Nat → List Nat
  | 0, _ => []
  | fuel + 1, n =>
    if n < 10 then [n] else natDigitsAux fuel (n / 10) ++ [n % 10]

/-- Decimal digits of `n`, most significant first. -/
def natDigits (n : Nat) : List Nat :=
  natDigitsAux (n + 1) n

/-- The character of one decimal digit. -/
def digitCh (d : Nat) : Char :=
  Char.ofNat (48 + d)

/-- Python `str(n)` for a natural number. -/
def pyStr (n : Nat) : String :=
  ⟨(natDigits n).map digitCh⟩

/-- Python `str(i)` for an integer. -/
def pyStrInt (i : Int) : String :=
  if i < 0 then "-" ++ pyStr i.natAbs else pyStr i.natAbs

/-- The value of a digit list, most significant first. -/
def digitsVal (ds : List Nat) : Nat :=
  ds.foldl (fun a d => a * 10 + d) 0

/-! ## The regex fragment used by the program

`KP_Filter._match_pattern` compiles an arbitrary user pattern with
`regex.IGNORECASE` and reports whether `findall` is non-empty;
`KP_Get._normalize_data` and `_parse_extinf_line` use fixed patterns that are
alternations of (escaped) literals, optionally anchored with `^` and `$`.
We embed that fragment: a pattern is split on unescaped `|`; each alternative
may start with `^`, end with `$`, and otherwise consists of literal
characters, where a backslash escapes the following non-alphanumeric
character.  Any other construct (an unescaped `(`, `[`, `*`, `+`, `?`, `.`,
`{`, a dangling backslash, a class escape) is outside the fragment and
compilation fails, as `re.compile` does for `"("`. -/
/-- One alternative of a compiled pattern. -/
structure RegexAlt where
  anchStart : Bool
  lit : List Char
  anchEnd : Bool
deriving Repr, DecidableEq

/-- Split a pattern on unescaped `|`; the Bool flag records a pending
backslash escape; the accumulator collects the current alternative
(reversed). -/
def splitBars : List Char → Bool → List Char → List (List Char)
  | [], true, acc => [('\\' :: acc).reverse]
  | [], false, acc => [acc.reverse]
  | c :: rest, true, acc => splitBars rest false (c :: '\\' :: acc)
  | '\\' :: rest, false, acc => splitBars rest true acc
  | '|' :: rest, false, acc => acc.reverse :: splitBars rest false []
  | c :: rest, false, acc => splitBars rest false (c :: acc)

/-- Characters that are regex metacharacters outside our literal fragment. -/
def regexSpecial (c : Char) : Bool :=
  c == '(' || c == ')' || c == '[' || c == ']' || c == '*' ||
  c == '+' || c == '?' || c == '.' || c == '^' || c == '$' ||
  c == '|' || c == '\\' || c == '\x7b' || c == '\x7d'

/-- Compile the body of one alternative into a literal and an end anchor. -/
def compileLit : List Char → Option (List Char × Bool)
  | [] => some ([], false)
  | ['$'] => some ([], true)
  | ['\\'] => none
  | '\\' :: c :: rest =>
    if c.isAlphanum then none
    else (compileLit rest).map fun p => (c :: p.1, p.2)
  | c :: rest =>
    if regexSpecial c then none
    else (compileLit rest).map fun p => (c :: p.1, p.2)

/-- Compile one alternative, peeling a leading `^` anchor. -/
def compileAlt (cs : List Char) : Option RegexAlt :=
  match cs with
  | '^' :: rest => (compileLit rest).map fun p => ⟨true, p.1, p.2⟩
  | rest => (compileLit rest).map fun p => ⟨false, p.1, p.2⟩

/-- Embeds `re.compile(pattern, IGNORECASE)` on the alternation-of-literals
fragment; `none` means the pattern is outside the fragment / fails to
compile. -/
def compilePattern (pattern : String) : Option (List RegexAlt) :=
  (splitBars pattern.toList false []).mapM compileAlt

/-- Case-insensitive match of one alternative anywhere in `text`
(`findall` non-emptiness / `search` success for this fragment). -/
def altMatches (a : RegexAlt) (text : List Char) : Bool :=
  let lit := lowerL a.lit
  let t := lowerL text
  match a.anchStart, a.anchEnd with
  | true, true => lit == t
  | true, false => isPrefixL lit t
  | false, true => isSuffixL lit t
  | false, false => containsL lit t

/-- `findall` returns at least one match iff some alternative matches. -/
def regexFindall (alts : List RegexAlt) (text : String) : Bool :=
  alts.any (fun a => altMatches a text.toList)

/-- Embeds `KP_Filter._match_pattern` (src/sync/filter.py lines 16-31):
compile with IGNORECASE and test `findall`; any compile/match failure is
caught and yields `False`. -/
def matchPattern (pattern text : String) : Bool :=
  match compilePattern pattern with
  | some alts => regexFindall alts text
  | none => false

/-! ## Data model -/
/-- A filter rule row as loaded by `KP_Sync_Data._get_filters`
(columns `sf_filter`, `sf_type_id`; only `sf_active = 1` rows are loaded). -/
structure FilterRule where
  sf_type_id : Nat
  sf_filter : String
deriving Repr, DecidableEq

/-- A normalized stream record (the inner dicts built by
`KP_Get._parse_m3u` / `KP_Get._normalize_data`).  The id type `ι` is
`String` on the playlist path and `Int` on the API path. -/
structure StreamRec (ι : Type) where
  stream_id : ι
  stream_name : String
  stream_url : String
  cat_id : String
  epg_id : String
  is_adult : Bool
  stream_type : Nat
  stream_group : String
  stream_icon : String
deriving Repr, DecidableEq

/-! ## Filter engine (src/sync/filter.py, `KP_Filter.filter_streams`) -/
/-- The include test: any rule of kind 0 whose pattern matches the name. -/
def isIncluded (db_filters : List FilterRule) (stream_name : String) : Bool :=
  db_filters.any fun r => r.sf_type_id == 0 && matchPattern r.sf_filter stream_name

/-- One step of the exclude loop: does this rule exclude the stream?
Kind 1 is a case-insensitive substring test on the name, kinds 2/3 are
regex tests on the name/url; the `break` in the source only short-circuits
a boolean, so the loop is `any`. -/
def excludeMatches (stream_name stream_url : String) (r : FilterRule) : Bool :=
  if r.sf_type_id == 1 then
    containsL (lowerS r.sf_filter) (lowerS stream_name)
  else if r.sf_type_id == 2 || r.sf_type_id == 3 then
    matchPattern r.sf_filter (if r.sf_type_id == 2 then stream_name else stream_url)
  else false

/-- Per-stream keep decision of `filter_streams`. -/
def keepStream (db_filters : List FilterRule) {ι : Type}
    (stream : StreamRec ι) : Bool :=
  if isIncluded db_filters stream.stream_name then true
  else !(db_filters.any (excludeMatches stream.stream_name stream.stream_url))

/-- Embeds `KP_Filter.filter_streams` (src/sync/filter.py lines 34-119):
no filters is the identity; otherwise keep each stream iff an include rule
matches, or no exclude rule matches. -/
def filter_streams {ι : Type} (normalized_data : List (ι × StreamRec ι))
    (db_filters : List FilterRule) : List (ι × StreamRec ι) :=
  if db_filters.isEmpty then normalized_data
  else normalized_data.filter fun p => keepStream db_filters p.2

/-! ## Id disambiguation (src/sync/get.py lines 154-159)

The source's `while stream_id in normalized` loop tries
`base`, `base_1`, `base_2`, ... and takes the first id not already present.
The loop is embedded with fuel `keys.length + 1`, which always suffices:
the candidates are pairwise distinct, so among the first `keys.length + 1`
suffixed candidates one is free. -/
/-- The suffix-search loop: try `base_counter`, `base_(counter+1)`, ... -/
def uniquifyGo (base : String) (keys : List String) : Nat → Nat → String
  | _, 0 => base
  | counter, fuel + 1 =>
    if (base ++ "_" ++ pyStr counter) ∈ keys then
      uniquifyGo base keys (counter + 1) fuel
    else base ++ "_" ++ pyStr counter

/-- Embeds the unique-id search of `_parse_m3u`: `base` itself if free,
otherwise the first free `base_k` with `k = 1, 2, ...`. -/
def uniquifyId (base : String) (keys : List String) : String :=
  if base ∈ keys then uniquifyGo base keys 1 (keys.length + 1) else base

/-! ## Scenario D fixtures (spec §8) -/
/-- A playlist-shaped stream record with the given id, name and url. -/
def mkNamedStream (id name url : String) : StreamRec String :=
  ⟨id, name, url, "Uncategorized", name, false, 0, "live",
   "https://cdn.kevp.us/kp/kevinpirnie-favicon-initials.svg"⟩

/-- Scenario D rules: one include rule and one exclude-contains rule. -/
def scenarioDRules : List FilterRule := [⟨0, "^News$"⟩, ⟨1, "news"⟩]

/-- Scenario D streams: "News" and "Newsflash". -/
def scenarioDStreams : List (String × StreamRec String) :=
  [("news", mkNamedStream "news" "News" "http://x/news.ts"),
   ("newsflash", mkNamedStream "newsflash" "Newsflash" "http://x/newsflash.ts")]

/-- The stream used in the C5 counterexample. -/
def c5Stream : StreamRec String :=
  ⟨"x", "a(b", "http://u", "Uncategorized", "a(b", false, 0, "live", ""⟩

/-! ## API normalization (src/sync/get.py, `KP_Get._normalize_data`;
src/common/common.py, `KP_Common.__init__`) -/
/-- Python `template % args` for `%s` substitutions; every use in the
program supplies exactly as many arguments as placeholders, so the
missing-argument error path is never reached. -/
def pyFormatL : List Char → List String → List Char
  | [], _ => []
  | '%' :: 's' :: rest, a :: args => a.toList ++ pyFormatL rest args
  | '%' :: 's' :: rest, [] => '%' :: 's' :: pyFormatL rest []
  | c :: rest, args => c :: pyFormatL rest args

/-- Python `template % args` on strings. -/
def pyFormat (template : String) (args : List String) : String :=
  ⟨pyFormatL template.toList args⟩

/-- `KP_Common.stream_live` (src/common/common.py line 31). -/
def stream_live : String := "%s/live/%s/%s/%s.%s"

/-- `KP_Common.stream_series` (src/common/common.py line 32). -/
def stream_series : String := "%s/series/%s/%s/%s.%s"

/-- `KP_Common.stream_vod` (src/common/common.py line 33). -/
def stream_vod : String := "%s/movie/%s/%s/%s.%s"

/-- The default icon URL used throughout `KP_Get`. -/
def defaultIcon : String := "https://cdn.kevp.us/kp/kevinpirnie-favicon-initials.svg"

/-- The `_series_re_pattern` of `_normalize_data` (src/sync/get.py line 341). -/
def seriesPattern : String := "24\\/7|247|\\/series\\/|\\/shows\\/|\\/show\\/"

/-- The `_vod_re_pattern` of `_normalize_data` (src/sync/get.py line 344). -/
def vodPattern : String := "\\/vods\\/|\\/vod\\/|\\/movies\\/|\\/movie\\/"

/-- Python `s.lower()` as a string-to-string operation. -/
def lowerStr (s : String) : String :=
  ⟨lowerL s.toList⟩

/-- A provider row (columns selected by `KP_Sync_Data._get_providers`; the
`container_extension` and `default_icon` keys are read with `.get`, hence
optional). -/
structure Provider where
  sp_name : String
  u_id : Nat
  id : Nat
  sp_type : Nat
  sp_domain : String
  sp_username : String
  sp_password : String
  sp_stream_type : Nat
  container_extension : Option String
  default_icon : Option String
deriving Repr, DecidableEq

/-- One JSON record of a `player_api.php` response, with the keys
`_normalize_data` reads; `none` models an absent key. -/
structure ApiItem where
  stream_id : Option Int
  series_id : Option Int
  name : Option String
  category_id : Option String
  epg_channel_id : Option String
  tmdb : Option String
  cover : Option String
  is_adult : Option Int
  stream_icon : Option String
  stream_url : Option String
deriving Repr, DecidableEq

/-- Python truthiness chain `item.get("stream_id") or item.get("series_id")`
followed by `if not stream_id: continue`: a present, non-zero id. -/
def resolveStreamId (item : ApiItem) : Option Int :=
  let sid := match item.stream_id with
    | some v => if v ≠ 0 then some v else item.series_id
    | none => item.series_id
  match sid with
  | some v => if v ≠ 0 then some v else none
  | none => none

/-- The type-specific fields built by the `match data_type` block of
`_normalize_data` (src/sync/get.py lines 360-411); `none` when a required
key is missing (the per-record `KeyError` caught as a skip). -/
structure TypedFields where
  cat_id : String
  epg_id : String
  is_adult : Bool
  stream_type : Nat
  stream_group : String
  stream_icon : String
deriving Repr, DecidableEq

/-- Embeds the `match data_type` block of `_normalize_data`.  The source's
`re.search` calls on the fixed patterns coincide with `matchPattern` on
this fragment (the patterns always compile). -/
def normalize_typed (data_type : String) (provider : Provider)
    (item : ApiItem) : Option TypedFields :=
  if data_type == "live" then do
    let cat ← item.category_id
    let epg ← item.epg_channel_id
    let stream_name := lowerStr (item.name.getD "")
    let st :=
      if matchPattern seriesPattern stream_name then 5
      else if matchPattern vodPattern stream_name then 3
      else provider.sp_stream_type
    some ⟨cat, epg, (item.is_adult.getD 0) ≠ 0, st, "live",
      item.stream_icon.getD defaultIcon⟩
  else if data_type == "series" then do
    let cat ← item.category_id
    let nm ← item.name
    some ⟨cat, item.tmdb.getD nm, false, 5, "series",
      item.cover.getD defaultIcon⟩
  else if data_type == "vod" then do
    let cat ← item.category_id
    let nm ← item.name
    let adult ← item.is_adult
    some ⟨cat, item.tmdb.getD nm, adult ≠ 0, 3, "vod",
      item.stream_icon.getD defaultIcon⟩
  else none

/-- The url template `getattr(self.common, f"stream_{data_type}",
self.common.stream_live)` (src/sync/get.py line 330). -/
def urlTemplate (data_type : String) : String :=
  if data_type == "live" then stream_live
  else if data_type == "series" then stream_series
  else if data_type == "vod" then stream_vod
  else stream_live

/-- The container extension: `ts` for a live-hinted provider, else `m3u8`;
for the vod group the provider may override it (src/sync/get.py lines
331-335). -/
def containerExt (data_type : String) (provider : Provider) : String :=
  let ext := if provider.sp_stream_type == 0 then "ts" else "m3u8"
  if data_type == "vod" then provider.container_extension.getD ext else ext

/-- Embeds the per-record mapping of `_normalize_data` (src/sync/get.py
lines 347-434): `none` is a skipped record. -/
def normalize_item (data_type : String) (provider : Provider)
    (item : ApiItem) : Option (Int × StreamRec Int) := do
  let sid ← resolveStreamId item
  let typed ← normalize_typed data_type provider item
  let nm ← item.name
  let url :=
    if provider.sp_stream_type != 1 then
      pyFormat (urlTemplate data_type)
        [provider.sp_domain, provider.sp_username, provider.sp_password,
         pyStrInt sid, containerExt data_type provider]
    else item.stream_url.getD ""
  some (sid, ⟨sid, nm, url, typed.cat_id, typed.epg_id, typed.is_adult,
    typed.stream_type, typed.stream_group, typed.stream_icon⟩)

/-- Python dict assignment `normalized[stream_id] = stream_data`: replace
in place when the key exists, append otherwise. -/
def upsert {κ : Type} [DecidableEq κ] {α : Type} (k : κ) (v : α) :
    List (κ × α) → List (κ × α)
  | [] => [(k, v)]
  | (k', v') :: t => if k = k' then (k, v) :: t else (k', v') :: upsert k v t

/-- Embeds `_normalize_data` on an API record list (src/sync/get.py lines
319-437): map every record, building the keyed dict; an empty input or
empty result is `None`. -/
def normalize_data (data_type : String) (provider : Provider)
    (items : List ApiItem) : Option (List (Int × StreamRec Int)) :=
  if items.isEmpty then none
  else
    let normalized := items.foldl (fun acc item =>
      match normalize_item data_type provider item with
      | some kv => upsert kv.1 kv.2 acc
      | none => acc) []
    if normalized.isEmpty then none else some normalized

/-- The Scenario C provider: API kind, stream hint Live. -/
def scenarioCProvider : Provider :=
  ⟨"prov", 1, 1, 0, "http://dom", "u", "p", 0, none, none⟩

/-- The Scenario C record `{stream_id:5, name:"Movie Night",
category_id:"G", epg_channel_id:"5"}`. -/
def scenarioCItem : ApiItem :=
  ⟨some 5, none, some "Movie Night", some "G", some "5",
   none, none, none, none, none⟩

/-! ## Playlist parsing (src/sync/get.py, `KP_Get._parse_extinf_line` and
`KP_Get._parse_m3u`) -/
/-- The dict built by `_parse_extinf_line` (src/sync/get.py lines 229-316);
`none` is the parse-failure case. -/
structure ExtinfData where
  name : String
  category_id : String
  epg_channel_id : String
  stream_icon : String
  is_adult : Bool
  stream_type : Nat
deriving Repr, DecidableEq

/-- Python `s.strip('"')`. -/
def stripQuotes (cs : List Char) : List Char :=
  ((cs.dropWhile (fun c => c == '"')).reverse.dropWhile
    (fun c => c == '"')).reverse

/-- Capture of `[^"]*"`: the characters before the next quote; `none` when
no closing quote follows (that occurrence of the attribute fails to
match). -/
def takeUntilQuote : List Char → Option (List Char)
  | [] => none
  | c :: rest =>
    if c == '"' then some []
    else (takeUntilQuote rest).map (fun v => c :: v)

/-- The first match of the pattern `key="([^"]*)"`, returning the capture
group. -/
def findAttr (key : List Char) : List Char → Option (List Char)
  | [] => none
  | c :: rest =>
    if isPrefixL (key ++ ['=', '"']) (c :: rest) then
      match takeUntilQuote (rest.drop (key.length + 1)) with
      | some v => some v
      | none => findAttr key rest
    else findAttr key rest

/-- Python `s.rfind(c)`: index of the last occurrence. -/
def rfindIdx (c : Char) (cs : List Char) : Option Nat :=
  match cs.reverse.findIdx? (fun x => x == c) with
  | some j => some (cs.length - 1 - j)
  | none => none

/-- Python `any(x in hay for x in needles)`. -/
def containsAnyL (needles : List String) (hay : List Char) : Bool :=
  needles.any fun n => containsL n.toList hay

/-- Embeds `KP_Get._parse_extinf_line` (src/sync/get.py lines 229-316).
The body never raises in the embedding, so the `except` branch corresponds
only to the leading prefix check. -/
def parse_extinf_line (extinf_data : String) (provider : Provider)
    (line_num : Nat) : Option ExtinfData :=
  if !(isPrefixL "#EXTINF:-1".toList extinf_data.toList) then none
  else
    let body := pyStrip (extinf_data.toList.drop 11)
    let nameDefault := ("Stream_" ++ pyStr line_num).toList
    let split :=
      match rfindIdx ',' body with
      | none => (body, nameDefault)
      | some i =>
        let pn := pyStrip (body.drop (i + 1))
        if pn.isEmpty then (body.take i, nameDefault)
        else (body.take i, pyStrip (stripQuotes pn))
    let attrs := split.1
    let name0 := split.2
    let name :=
      if name0.isEmpty || name0 == nameDefault then
        match findAttr "tvg-name".toList attrs with
        | some v => if v.isEmpty then name0 else v
        | none => name0
      else name0
    let category :=
      match findAttr "group-title".toList attrs with
      | some v => if v.isEmpty then "Uncategorized".toList else v
      | none => "Uncategorized".toList
    let epg :=
      match findAttr "tvg-id".toList attrs with
      | some v => if v.isEmpty then name else v
      | none => name
    let icon0 := (provider.default_icon.getD defaultIcon).toList
    let icon :=
      match findAttr "tvg-logo".toList attrs with
      | some v =>
        if !v.isEmpty && isPrefixL "http".toList v && !(isSuffixL ['>'] v)
        then v else icon0
      | none => icon0
    let adult :=
      match findAttr "adult".toList attrs with
      | some v => lowerL v == "true".toList
      | none => false
    let name_lower := lowerL name
    let group_lower := lowerL category
    let st :=
      if containsAnyL ["24/7", "series", "shows", "show"] name_lower ||
         containsAnyL ["series", "shows"] group_lower then 5
      else if containsAnyL ["movie", "movies", "vod"] name_lower ||
         containsAnyL ["movies", "vod"] group_lower then 3
      else provider.sp_stream_type
    some ⟨⟨name⟩, ⟨category⟩, ⟨epg⟩, ⟨icon⟩, adult, st⟩

/-- Canonical id: the name with all non-alphanumeric characters stripped,
lowercased (`re.sub(r'[^a-zA-Z0-9]', '', name).lower()`). -/
def canonId (name : String) : String :=
  ⟨lowerL (name.toList.filter Char.isAlphanum)⟩

/-- Embeds committing one URL-terminated entry (src/sync/get.py lines
132-191): parse the collected EXTINF data (a failure counts as skipped),
apply the URL-based type override, build the unique id and append the
record. -/
def commitEntry (provider : Provider) (acc url : String)
    (normalized : List (String × StreamRec String)) (processed skipped : Nat) :
    List (String × StreamRec String) × Nat × Nat :=
  match parse_extinf_line acc provider processed with
  | none => (normalized, processed, skipped + 1)
  | some sd =>
    let st :=
      if containsAnyL ["/series/", "/shows/", "/show/"] url.toList then 5
      else if containsAnyL ["/movie/", "/movies/", "/vod/"] url.toList then 3
      else sd.stream_type
    let base0 := canonId sd.name
    let base := if base0 = "" then "stream_" ++ pyStr processed else base0
    let sid := uniquifyId base (normalized.map Prod.fst)
    let group :=
      if st == 5 then "series" else if st == 3 then "vod" else "live"
    (normalized ++
      [(sid, ⟨sid, sd.name, url, sd.category_id, sd.epg_channel_id,
        sd.is_adult, st, group, sd.stream_icon⟩)],
     processed + 1, skipped)

/-- Embeds the two-loop line scan of `_parse_m3u` (src/sync/get.py lines
102-218) as one structural recursion: `mode = none` is the outer loop;
`mode = some acc` is the inner look-ahead loop collecting multi-line
EXTINF data.  In the source, the inner loop leaves the line it breaks on
unconsumed for the outer loop, which either starts a new entry at an
`#EXTINF:-1` line or silently skips any other line — that hand-off is
fused here: the breaking line's outer-loop treatment is applied directly
(new entry for `#EXTINF:-1`, silent skip otherwise). -/
def parseScanAux (provider : Provider) :
    List String → Option (List Char) → List (String × StreamRec String) →
      Nat → Nat → List (String × StreamRec String) × Nat × Nat
  | [], none, n, p, s => (n, p, s)
  | [], some _, n, p, s => (n, p, s + 1)
  | l :: ls, none, n, p, s =>
    let line := pyStrip l.toList
    if line.isEmpty then parseScanAux provider ls none n p s
    else if isPrefixL "#EXTINF:-1".toList line then
      parseScanAux provider ls (some line) n p s
    else parseScanAux provider ls none n p s
  | l :: ls, some acc, n, p, s =>
    let nl := pyStrip l.toList
    if nl.isEmpty then parseScanAux provider ls (some acc) n p s
    else if isPrefixL "http".toList nl then
      let st := commitEntry provider ⟨acc⟩ ⟨nl⟩ n p s
      parseScanAux provider ls none st.1 st.2.1 st.2.2
    else if isPrefixL "#EXTINF:-1".toList nl then
      parseScanAux provider ls (some nl) n p (s + 1)
    else if isPrefixL "#".toList nl then
      parseScanAux provider ls none n p (s + 1)
    else parseScanAux provider ls (some (acc ++ ' ' :: nl)) n p s

/-- The full scan of `_parse_m3u` on the `splitlines` result: the record
dict, the processed count and the skipped count. -/
def parse_m3u_scan (provider : Provider) (lines : List String) :
    List (String × StreamRec String) × Nat × Nat :=
  parseScanAux provider lines none [] 0 0

/-- Embeds `KP_Get._parse_m3u` (src/sync/get.py lines 79-227) given the
`splitlines` result: empty or whitespace-only content is `None`, and so is
a scan yielding no records. -/
def parse_m3u (provider : Provider) (lines : List String) :
    Option (List (String × StreamRec String)) :=
  if lines.all (fun l => (pyStrip l.toList).isEmpty) then none
  else
    let r := parse_m3u_scan provider lines
    if r.1.isEmpty then none else some r.1

/-! ## The spec-side entry classification (for the refinement claim about
malformed playlist entries)

`specOutcomesAux` follows the spec's description of the scan: a line
beginning with the entry marker starts an entry whose payload continues
across non-empty non-marker non-comment lines until a URL line commits it,
while another marker line, another comment line, or the end of input ends
it malformed.  It reuses the scanning skeleton of `parseScanAux` but
records only the per-entry outcome. -/
/-- The fate of one playlist entry. -/
inductive EntryOutcome where
  | committed (extinf url : String)
  | malformed
deriving Repr, DecidableEq

/-- The entry outcomes of a scan, in order. -/
def specOutcomesAux : List String → Option (List Char) → List EntryOutcome
  | [], none => []
  | [], some _ => [.malformed]
  | l :: ls, none =>
    let line := pyStrip l.toList
    if line.isEmpty then specOutcomesAux ls none
    else if isPrefixL "#EXTINF:-1".toList line then specOutcomesAux ls (some line)
    else specOutcomesAux ls none
  | l :: ls, some acc =>
    let nl := pyStrip l.toList
    if nl.isEmpty then specOutcomesAux ls (some acc)
    else if isPrefixL "http".toList nl then
      .committed ⟨acc⟩ ⟨nl⟩ :: specOutcomesAux ls none
    else if isPrefixL "#EXTINF:-1".toList nl then
      .malformed :: specOutcomesAux ls (some nl)
    else if isPrefixL "#".toList nl then
      .malformed :: specOutcomesAux ls none
    else specOutcomesAux ls (some (acc ++ ' ' :: nl))

/-- The entry outcomes of one playlist. -/
def specEntryOutcomes (lines : List String) : List EntryOutcome :=
  specOutcomesAux lines none

/-- Replaying a list of outcomes against the commit step. -/
def applyOutcomes (provider : Provider) :
    List EntryOutcome → List (String × StreamRec String) → Nat → Nat →
      List (String × StreamRec String) × Nat × Nat
  | [], n, p, s => (n, p, s)
  | .committed acc url :: os, n, p, s =>
    let st := commitEntry provider acc url n p s
    applyOutcomes provider os st.1 st.2.1 st.2.2
  | .malformed :: os, n, p, s => applyOutcomes provider os n p (s + 1)

/-- A committed outcome is well-formed when its collected payload starts
with the entry marker (always the case for outcomes of a scan). -/
def outcomeWf : EntryOutcome → Prop
  | .committed extinf _ => isPrefixL "#EXTINF:-1".toList extinf.toList = true
  | .malformed => True

/-- A playlist-kind provider used by the concrete parse examples. -/
def m3uProvider : Provider :=
  ⟨"m3u", 1, 2, 1, "http://pl", "", "", 0, none, none⟩

/-- Two entries whose names share the canonical id `cnn`. -/
def c6Lines : List String :=
  ["#EXTINF:-1 ,CNN", "http://a", "#EXTINF:-1 ,CNN!", "http://b"]

/-- One entry whose name strips to the empty canonical id. -/
def c6StarLines : List String :=
  ["#EXTINF:-1 ,***", "http://x/a.ts"]

/-- A playlist with three malformed entries: one ended by another entry
marker, one ended by another comment line, one ended by the end of
input. -/
def c7Lines : List String :=
  ["#EXTM3U", "#EXTINF:-1 ,A", "#EXTINF:-1 ,B", "http://u/x.ts",
   "#EXTINF:-1 ,C", "#EXTVLCOPT:xyz", "#EXTINF:-1 ,D"]

/-- The record `_normalize_data` actually produces for Scenario C. -/
def scenarioCRec : StreamRec Int :=
  ⟨5, "Movie Night", "http://dom/live/u/p/5.ts", "G", "5", false, 0, "live",
   defaultIcon⟩

/-- A live record whose name literally contains a slash-delimited VOD
segment, for which the keyword override does fire. -/
def scenarioCSlashItem : ApiItem :=
  ⟨some 5, none, some "best /movie/ picks", some "G", some "5",
   none, none, none, none, none⟩

/-! ## API stream-type selection (src/sync/get.py, `KP_Get.get_streams`)

For an API provider the source iterates `for stream_type in ['live',
'series']` (the variant including `'vod'` is commented out) and skips an
iteration when one of the `--live` / `--series` / `--vod` flags asks for a
different type. -/
/-- Embeds the stream-type group selection of `KP_Get.get_streams`
(src/sync/get.py lines 494-507) as a function of the three flags. -/
def fetchedStreamTypes (liveFlag seriesFlag vodFlag : Bool) : List String :=
  ["live", "series"].filter fun st =>
    (!liveFlag || st == "live") &&
    (!seriesFlag || st == "series") &&
    (!vodFlag || st == "vod")

/-! ## Per-provider task (src/sync/sync.py, `KP_Sync._process_provider`;
src/sync/data.py, `KP_Sync_Data._get_filters`) -/
/-- A storage row as built by `KP_Sync._convert_streams`. -/
structure StorageRow where
  u_id : Nat
  p_id : Nat
  s_orig_name : String
  s_stream_uri : String
  s_type_id : Nat
  s_tvg_id : String
  s_tvg_logo : String
  s_extras : String
  s_group : String
deriving Repr, DecidableEq

/-- Embeds `KP_Sync._convert_streams` (src/sync/sync.py lines 576-594). -/
def convert_streams {ι : Type} (streams : List (ι × StreamRec ι))
    (u_id p_id : Nat) : List StorageRow :=
  streams.map fun p =>
    ⟨u_id, p_id, p.2.stream_name, p.2.stream_url, p.2.stream_type,
     p.2.epg_id, p.2.stream_icon, "", p.2.stream_group⟩

/-- Embeds `KP_Sync_Data._get_filters` (src/sync/data.py lines 153-204):
it queries the owner's rows with `sf_active = 1` and returns the resulting
row list.  `db.get_all` returns the list produced by `cursor.fetchall()`,
which is an (possibly empty) list — the function never returns Python
`None`, so the embedding is always `some`. -/
def get_filters (activeRules : List FilterRule) : Option (List FilterRule) :=
  some activeRules

/-- Embeds `KP_Sync._process_provider` (src/sync/sync.py lines 423-487) as
a function of the provider identity, the owner's active rules, and the
fetched streams: the soft-failure tuple is returned only when
`_get_filters` returns `None`; otherwise the streams are filtered,
converted and the counts returned. -/
def process_provider {ι : Type} (sp_name : String) (u_id p_id : Nat)
    (activeRules : List FilterRule) (fetched : List (ι × StreamRec ι)) :
    Nat × Nat × String × Option String :=
  match get_filters activeRules with
  | none => (0, 0, sp_name, some "No filters found")
  | some fs =>
    let filtered := filter_streams fetched fs
    let converted := convert_streams filtered u_id p_id
    (fetched.length, converted.length, sp_name, none)

/-- Two example streams for the C4 evidence theorem. -/
def c4Streams : List (String × StreamRec String) :=
  [("a", mkNamedStream "a" "A" "http://x/a.ts"),
   ("b", mkNamedStream "b" "B" "http://x/b.ts")]

/-! ## Validity tester (src/sync/test.py, `KP_StreamTester`) -/
/-- One probed media stream as reported in ffprobe's JSON. -/
structure ProbeStream where
  codec_type : String
  codec_name : Option String
deriving Repr, DecidableEq

/-- The stdout of an ffprobe run: JSON that parses to a stream list, or
output `json.loads` rejects. -/
inductive FfprobeStdout where
  | unparseable
  | parsed (streams : List ProbeStream)
deriving Repr, DecidableEq

/-- The observable outcome of `subprocess.run(['ffprobe', ...])` as used by
`_validate_with_ffprobe`: a timeout, some other raised error, or an exit
with a return code and stdout. -/
inductive FfprobeOutcome where
  | runTimeout
  | runError
  | exit (returncode : Int) (stdout : FfprobeStdout)
deriving Repr, DecidableEq

/-- Embeds `KP_StreamTester._validate_with_ffprobe` (src/sync/test.py lines
120-170), returning the `(is_valid, error)` pair. -/
def validate_with_ffprobe (outcome : FfprobeOutcome) : Bool × String :=
  match outcome with
  | .runTimeout => (true, "")
  | .runError => (true, "")
  | .exit returncode stdout =>
    if returncode != 0 then (true, "")
    else
      match stdout with
      | .unparseable => (true, "")
      | .parsed streams =>
        match streams.filter (fun s => s.codec_type == "video") with
        | [] => (true, "")
        | v :: _ =>
          match v.codec_name with
          | some codec_name =>
            if codec_name != "" && codec_name != "unknown" then (true, "")
            else (true, "")
          | none => (true, "")

/-- The observable outcome of the streaming GET issued by
`_test_with_http_then_ffprobe`: a response with a status code and a first
chunk (`none` when reading the chunk raised), or a transport error. -/
inductive HttpAttempt where
  | ok (status : Nat) (firstChunk : Option (List Nat))
  | timeout
  | connError
  | otherError (msg : String)
deriving Repr, DecidableEq

/-- Embeds `KP_StreamTester._test_with_http_then_ffprobe` (src/sync/test.py
lines 32-118).  The `stream_indicators` block of the source only feeds a
debug log and has no effect on the result, so it is not represented. -/
def test_with_http_then_ffprobe (att : HttpAttempt) (ffprobeAvailable : Bool)
    (probe : FfprobeOutcome) : Bool × String :=
  match att with
  | .timeout => (false, "HTTP timeout")
  | .connError => (false, "Connection error")
  | .otherError msg => (false, "HTTP error: " ++ msg)
  | .ok status firstChunk =>
    if status != 200 && status != 206 then
      (false, "HTTP error: " ++ toString status)
    else
      match firstChunk with
      | none => (false, "Failed to read data")
      | some chunk =>
        if chunk.isEmpty then (false, "No data received")
        else if ffprobeAvailable then validate_with_ffprobe probe
        else if chunk.length > 0 then (true, "")
        else (false, "No data received from stream")

/-! ## Remediation workflow (src/sync/sync.py, `KP_Sync.fix_from_log` and
`_parse_log_file`; src/sync/data.py, `_cleanup`,
`_batch_move_streams_to_other`) -/
/-- A repository write performed through stored procedures during the
remediation workflow. -/
inductive DbOp where
  | cleanUp
  | moveToOther (id : Int)
deriving Repr, DecidableEq

/-- Decimal digit test used by the `int()` embedding. -/
def isDigitCh (c : Char) : Bool :=
  '0' ≤ c && c ≤ '9'

/-- Python `int(s)`: optional sign, at least one digit, nothing else
(surrounding whitespace tolerated). -/
def pyInt? (cs : List Char) : Option Int :=
  let t := pyStrip cs
  let core : List Char × Bool :=
    match t with
    | '-' :: rest => (rest, true)
    | '+' :: rest => (rest, false)
    | rest => (rest, false)
  if core.1.isEmpty || !(core.1.all isDigitCh) then none
  else
    let v : Int := Int.ofNat (core.1.foldl (fun a c => a * 10 + (c.toNat - 48)) 0)
    some (if core.2 then -v else v)

/-- Embeds the id extraction loop of `KP_Sync._parse_log_file`: each
stripped line starting with `ID: ` contributes the integer after the
prefix; unparseable ids are skipped. -/
def extractLogIds : List String → List Int
  | [] => []
  | l :: ls =>
    let t := pyStrip l.toList
    if isPrefixL "ID: ".toList t then
      match pyInt? (t.drop 4) with
      | some n => n :: extractLogIds ls
      | none => extractLogIds ls
    else extractLogIds ls

/-- Embeds `KP_Sync._parse_log_file` (src/sync/sync.py lines 327-359) on a
successfully read log file: it extracts the ids and — still inside the
parsing step — invokes `KP_Sync_Data._cleanup`, i.e. the `Streams_CleanUp`
stored procedure, exactly once.  Returns the ids and the repository
operations the call performs. -/
def parse_log_file (lines : List String) : List Int × List DbOp :=
  (extractLogIds lines, [DbOp.cleanUp])

/-- Embeds `KP_Sync_Data._batch_move_streams_to_other`: one
`Streams_Move_To_Other` call per id, in order (the chunks of 100 preserve
the order of calls). -/
def batch_move_ops (ids : List Int) : List DbOp :=
  ids.map DbOp.moveToOther

/-- Embeds `KP_Sync.fix_from_log` (src/sync/sync.py lines 259-305) on a
successfully read log file: parse the log (performing the parse step's own
cleanup call), stop if no ids were found, otherwise move every id. -/
def fix_from_log (lines : List String) : List DbOp :=
  let parsed := parse_log_file lines
  if parsed.1.isEmpty then parsed.2
  else parsed.2 ++ batch_move_ops parsed.1

/-! ## Supporting lemmas for the filter engine -/
/-- A pattern that fails to compile matches nothing (the `except` branch of
`_match_pattern` returns `False`). -/
theorem matchPattern_of_compile_fail (p t : String)
    (h : compilePattern p = none) : matchPattern p t = false := by
  unfold matchPattern
  rw [h]

/-- Removing an include-dead rule from the middle of the rule list does not
change the include decision. -/
theorem isIncluded_middle_dead (l₁ l₂ : List FilterRule) (r : FilterRule)
    (n : String) (h : matchPattern r.sf_filter n = false) :
    isIncluded (l₁ ++ r :: l₂) n = isIncluded (l₁ ++ l₂) n := by
  simp [isIncluded, List.any_append, List.any_cons, h]

/-- A non-kind-1 rule whose pattern does not compile excludes nothing. -/
theorem excludeMatches_dead (n u : String) (r : FilterRule)
    (hc : compilePattern r.sf_filter = none) (h1 : r.sf_type_id ≠ 1) :
    excludeMatches n u r = false := by
  have hb : (r.sf_type_id == 1) = false := by
    simpa using h1
  simp [excludeMatches, hb, matchPattern, hc]

/-- With a single dead rule the per-stream decision is `keep`. -/
theorem keepStream_single_dead {ι : Type} (r : FilterRule)
    (hc : compilePattern r.sf_filter = none) (h1 : r.sf_type_id ≠ 1)
    (s : StreamRec ι) : keepStream [r] s = true := by
  have hm := matchPattern_of_compile_fail r.sf_filter s.stream_name hc
  have he := excludeMatches_dead s.stream_name s.stream_url r hc h1
  simp [keepStream, isIncluded, hm, he]

/-- Dropping a dead rule from the middle does not change the decision. -/
theorem keepStream_middle_dead {ι : Type} (l₁ l₂ : List FilterRule)
    (r : FilterRule) (hc : compilePattern r.sf_filter = none)
    (h1 : r.sf_type_id ≠ 1) (s : StreamRec ι) :
    keepStream (l₁ ++ r :: l₂) s = keepStream (l₁ ++ l₂) s := by
  have hm := matchPattern_of_compile_fail r.sf_filter s.stream_name hc
  have he := excludeMatches_dead s.stream_name s.stream_url r hc h1
  unfold keepStream
  rw [isIncluded_middle_dead l₁ l₂ r s.stream_name hm]
  simp [List.any_append, List.any_cons, he]

/-! ## Claim theorems: C1 and C5 -/
/-- C1: in `KP_Filter.filter_streams` a matching active include rule
(kind 0) unconditionally retains the stream, whatever exclude rules (kinds
1, 2, 3) would match; concretely, with the include rule `^News$` and the
exclude-contains rule `news`, the stream named "News" is kept and the stream
named "Newsflash" is excluded. -/
theorem filter_include_always_wins :
    (∀ (ι : Type) (data : List (ι × StreamRec ι)) (rules : List FilterRule)
      (k : ι) (s : StreamRec ι),
      (k, s) ∈ data →
      (∃ r ∈ rules, r.sf_type_id = 0 ∧ matchPattern r.sf_filter s.stream_name = true) →
      (k, s) ∈ filter_streams data rules) ∧
    filter_streams scenarioDStreams scenarioDRules =
      [("news", mkNamedStream "news" "News" "http://x/news.ts")] := by
  constructor
  · intro ι data rules k s hmem hr
    obtain ⟨r, hrmem, h0, hmatch⟩ := hr
    have hne : rules.isEmpty = false := by
      cases rules with
      | nil => cases hrmem
      | cons a l => rfl
    unfold filter_streams
    rw [hne]
    simp only [Bool.false_eq_true, if_false, List.mem_filter]
    refine ⟨hmem, ?_⟩
    have hinc : isIncluded rules s.stream_name = true := by
      refine List.any_eq_true.mpr ⟨r, hrmem, ?_⟩
      simp [h0, hmatch]
    simp [keepStream, hinc]
  · decide

/-- Witness for C1 at the concrete Scenario D input. -/
theorem filter_include_always_wins_witness :
    ("news", mkNamedStream "news" "News" "http://x/news.ts") ∈
      filter_streams scenarioDStreams scenarioDRules :=
  filter_include_always_wins.1 String scenarioDStreams scenarioDRules
    "news" (mkNamedStream "news" "News" "http://x/news.ts") (by decide)
    ⟨⟨0, "^News$"⟩, by decide, rfl, by decide⟩

/-- C5 counterexample: a kind-1 (exclude-name-contains) rule whose pattern
`(` fails to regex-compile still excludes the stream named `a(b` — the
kind-1 branch of `filter_streams` is a substring test that never compiles
the pattern, so such a rule does not behave as if it matched nothing. -/
theorem filter_malformed_counterexample :
    compilePattern "(" = none ∧
    filter_streams [("x", c5Stream)] [⟨1, "("⟩] =
      ([] : List (String × StreamRec String)) ∧
    [("x", c5Stream)] ≠ ([] : List (String × StreamRec String)) := by
  refine ⟨rfl, by decide, by decide⟩

/-- C5 (amended): pattern evaluation is total — a compile failure yields
`false` rather than an exception — and a rule of a regex-evaluated kind
(anything other than the contains kind 1) whose pattern fails to compile
keeps no stream as an include rule and excludes no stream as an exclude
rule: filtering with it equals filtering without it.  (Kind-1 rules never
compile their pattern: they exclude by substring regardless.) -/
theorem filter_malformed_fail_open :
    (∀ p t, compilePattern p = none → matchPattern p t = false) ∧
    (∀ (ι : Type) (data : List (ι × StreamRec ι)) (l₁ l₂ : List FilterRule)
      (r : FilterRule),
      compilePattern r.sf_filter = none → r.sf_type_id ≠ 1 →
      filter_streams data (l₁ ++ r :: l₂) = filter_streams data (l₁ ++ l₂)) := by
  refine ⟨matchPattern_of_compile_fail, ?_⟩
  intro ι data l₁ l₂ r hc h1
  by_cases hre : l₁ ++ l₂ = []
  · obtain ⟨he₁, he₂⟩ := List.append_eq_nil.mp hre
    subst he₁; subst he₂
    show filter_streams data [r] = filter_streams data []
    unfold filter_streams
    simp only [List.isEmpty_cons, List.isEmpty_nil, Bool.false_eq_true,
      if_false, if_true]
    exact List.filter_eq_self.mpr fun p _ => keepStream_single_dead r hc h1 p.2
  · unfold filter_streams
    have hne₁ : (l₁ ++ r :: l₂).isEmpty = false := by
      cases l₁ <;> rfl
    have hne₂ : (l₁ ++ l₂).isEmpty = false := by
      cases hcc : l₁ ++ l₂ with
      | nil => exact absurd hcc hre
      | cons a l => rfl
    rw [hne₁, hne₂]
    simp only [Bool.false_eq_true, if_false]
    have hfun : (fun p : ι × StreamRec ι => keepStream (l₁ ++ r :: l₂) p.2) =
        fun p => keepStream (l₁ ++ l₂) p.2 := by
      funext p
      exact keepStream_middle_dead l₁ l₂ r hc h1 p.2
    rw [hfun]

/-- Witness for C5's amended theorem at a concrete rule list. -/
theorem filter_malformed_fail_open_witness :
    filter_streams [("x", c5Stream)] ([⟨1, "news"⟩] ++ (⟨2, "("⟩ : FilterRule) :: []) =
      filter_streams [("x", c5Stream)] ([⟨1, "news"⟩] ++ []) :=
  filter_malformed_fail_open.2 String [("x", c5Stream)] [⟨1, "news"⟩] []
    ⟨2, "("⟩ rfl (by decide)

/-- C3 (code evidence): `get_streams` never fetches the `vod` group — it is
absent from the iterated list — and when `--vod` is passed every iterated
group is skipped, so nothing at all is fetched; without flags the groups
fetched are exactly `live` and `series`. -/
theorem get_streams_vod_never_fetched :
    (∀ liveFlag seriesFlag vodFlag : Bool,
      "vod" ∉ fetchedStreamTypes liveFlag seriesFlag vodFlag) ∧
    fetchedStreamTypes false false false = ["live", "series"] ∧
    fetchedStreamTypes false false true = [] := by
  decide

/-- C2 counterexample: normalizing the Scenario C live record
`{stream_id:5, name:"Movie Night", category_id:"G", epg_channel_id:"5"}`
for a Live-hinted provider does not yield kind Vod and does not use the
VOD-path template — the `_vod_re_pattern` requires slash-delimited segments
(`/movie/` etc.) that "Movie Night" lacks. -/
theorem normalize_movieNight_counterexample :
    normalize_data "live" scenarioCProvider [scenarioCItem] =
      some [(5, scenarioCRec)] ∧
    scenarioCRec.stream_type ≠ 3 ∧
    scenarioCRec.stream_url ≠
      pyFormat stream_vod
        ["http://dom", "u", "p", pyStrInt 5, "ts"] := by
  refine ⟨by decide, by decide, by decide⟩

/-- C2 (amended): the Scenario C record normalizes with kind Live (0), the
provider's hint, and its URL is built from the live template
`%s/live/%s/%s/%s.%s`; the VOD keyword override fires only when the name
contains a slash-delimited segment such as `/movie/` (and even then it
changes only the kind, not the URL template, which is chosen by the fetched
group). -/
theorem normalize_movieNight_amended :
    normalize_data "live" scenarioCProvider [scenarioCItem] =
      some [(5, scenarioCRec)] ∧
    scenarioCRec.stream_type = 0 ∧
    scenarioCRec.stream_url =
      pyFormat stream_live
        ["http://dom", "u", "p", pyStrInt 5, "ts"] ∧
    (normalize_item "live" scenarioCProvider scenarioCSlashItem).map
        (fun p => (p.2.stream_type, p.2.stream_url)) =
      some (3, "http://dom/live/u/p/5.ts") := by
  refine ⟨by decide, rfl, by decide, by decide⟩

/-- C4 (code evidence): for an owner with no active filter rules the task
does not stop with `(0, 0, name, "No filters found")` — `_get_filters`
returns an empty list, never `None`, so the dead `is None` guard is skipped
and the task filters with an empty rule list (the identity), converting and
returning every fetched stream. -/
theorem process_provider_no_filters_proceeds :
    (∀ (ι : Type) (sp_name : String) (u_id p_id : Nat)
      (fetched : List (ι × StreamRec ι)),
      process_provider sp_name u_id p_id [] fetched =
        (fetched.length, fetched.length, sp_name, none)) ∧
    process_provider "P" 1 7 [] c4Streams = (2, 2, "P", none) ∧
    process_provider "P" 1 7 [] c4Streams ≠ (0, 0, "P", some "No filters found") := by
  refine ⟨?_, by decide, by decide⟩
  intro ι sp_name u_id p_id fetched
  simp [process_provider, get_filters, filter_streams, convert_streams]

/-- C8: a response status outside {200, 206} is classified invalid with
reason exactly `HTTP error: <code>` (404 gives `HTTP error: 404`), and a
200 response whose first chunk is empty is invalid with reason
`No data received`. -/
theorem http_test_error_reasons :
    (∀ (status : Nat) (chunk : Option (List Nat)) (ffa : Bool)
      (probe : FfprobeOutcome),
      status ≠ 200 → status ≠ 206 →
      test_with_http_then_ffprobe (.ok status chunk) ffa probe =
        (false, "HTTP error: " ++ toString status)) ∧
    (∀ (ffa : Bool) (probe : FfprobeOutcome),
      test_with_http_then_ffprobe (.ok 200 (some [])) ffa probe =
        (false, "No data received")) ∧
    test_with_http_then_ffprobe (.ok 404 (some [71, 64])) true
      (.exit 0 (.parsed [])) = (false, "HTTP error: 404") := by
  refine ⟨?_, ?_, rfl⟩
  · intro status chunk ffa probe h200 h206
    have hb : (status != 200 && status != 206) = true := by
      simp [h200, h206]
    simp [test_with_http_then_ffprobe, hb]
  · intro ffa probe
    rfl

/-- Witness for C8 at the concrete 404 input. -/
theorem http_test_error_reasons_witness :
    test_with_http_then_ffprobe (.ok 404 (some [71, 64])) false .runTimeout =
      (false, "HTTP error: " ++ toString 404) :=
  http_test_error_reasons.1 404 (some [71, 64]) false .runTimeout
    (by decide) (by decide)

/-- C9: once the HTTP check has passed, the ffprobe validation step returns
valid in every case — a non-zero exit status, a timeout, a raised error,
unparseable output, no video streams, or an unknown codec never downgrades
the result. -/
theorem ffprobe_never_downgrades :
    ∀ outcome : FfprobeOutcome, validate_with_ffprobe outcome = (true, "") := by
  intro outcome
  cases outcome with
  | runTimeout => rfl
  | runError => rfl
  | exit returncode stdout =>
    simp only [validate_with_ffprobe]
    split
    · rfl
    · cases stdout with
      | unparseable => rfl
      | parsed streams =>
        repeat' first
          | rfl
          | split

/-- C10: whenever `fix_from_log` successfully reads a log file, the
log-parsing step itself performs the `Streams_CleanUp` repository call, and
in the whole workflow that cleanup happens exactly once and before any
`Streams_Move_To_Other` call. -/
theorem fix_from_log_cleanup_once_before_moves :
    ∀ lines : List String,
      (parse_log_file lines).2 = [DbOp.cleanUp] ∧
      (fix_from_log lines).head? = some DbOp.cleanUp ∧
      (fix_from_log lines).count DbOp.cleanUp = 1 := by
  intro lines
  refine ⟨rfl, ?_, ?_⟩
  · unfold fix_from_log parse_log_file
    by_cases h : (extractLogIds lines).isEmpty
    · simp [h]
    · simp [h, batch_move_ops]
  · unfold fix_from_log parse_log_file
    by_cases h : (extractLogIds lines).isEmpty
    · simp [h]
    · have hmv : (batch_move_ops (extractLogIds lines)).count DbOp.cleanUp = 0 := by
        refine List.count_eq_zero.mpr ?_
        intro hmem
        simp [batch_move_ops, List.mem_map] at hmem
      simp [h, List.count_append, hmv, List.count_cons]

/-! ## Decimal printer properties and the id uniquifier -/
/-- The decimal printer round-trips through the digit value. -/
theorem digitsVal_natDigitsAux :
    ∀ fuel n : Nat, n < fuel → digitsVal (natDigitsAux fuel n) = n := by
  intro fuel
  induction fuel with
  | zero => intro n h; omega
  | succ f ih =>
    intro n h
    unfold natDigitsAux
    by_cases h10 : n < 10
    · rw [if_pos h10]
      simp [digitsVal]
    · rw [if_neg h10]
      have hd : n / 10 < f := by
        have := Nat.div_lt_self (by omega : 0 < n) (by omega : 1 < 10)
        omega
      have hih := ih (n / 10) hd
      simp only [digitsVal, List.foldl_append, List.foldl_cons,
        List.foldl_nil] at hih ⊢
      rw [hih]
      omega

/-- Every emitted digit is below ten. -/
theorem natDigitsAux_lt_ten :
    ∀ fuel n d : Nat, d ∈ natDigitsAux fuel n → d < 10 := by
  intro fuel
  induction fuel with
  | zero => intro n d h; cases h
  | succ f ih =>
    intro n d h
    unfold natDigitsAux at h
    by_cases h10 : n < 10
    · rw [if_pos h10] at h
      simp at h
      omega
    · rw [if_neg h10] at h
      rcases List.mem_append.mp h with h1 | h2
      · exact ih _ _ h1
      · simp at h2
        omega

/-- Digit characters are distinct for distinct digits. -/
theorem digitCh_inj : ∀ d < 10, ∀ e < 10, digitCh d = digitCh e → d = e := by
  decide

/-- Mapping `digitCh` over bounded digit lists is injective. -/
theorem map_digitCh_inj :
    ∀ xs ys : List Nat, (∀ d ∈ xs, d < 10) → (∀ d ∈ ys, d < 10) →
      xs.map digitCh = ys.map digitCh → xs = ys := by
  intro xs
  induction xs with
  | nil =>
    intro ys _ _ h
    cases ys with
    | nil => rfl
    | cons b bs => simp at h
  | cons a as ih =>
    intro ys hx hy h
    cases ys with
    | nil => simp at h
    | cons b bs =>
      simp only [List.map_cons, List.cons.injEq] at h
      have ha : a < 10 := hx a (by simp)
      have hb : b < 10 := hy b (by simp)
      have hab := digitCh_inj a ha b hb h.1
      subst hab
      have htail := ih bs (fun d hd => hx d (by simp [hd]))
        (fun d hd => hy d (by simp [hd])) h.2
      rw [htail]

/-- `pyStr` is injective (via the digit-value round trip). -/
theorem pyStr_inj : ∀ a b : Nat, (pyStr a).data = (pyStr b).data → a = b := by
  intro a b h
  have hdig : natDigits a = natDigits b :=
    map_digitCh_inj _ _ (fun d hd => natDigitsAux_lt_ten _ _ d hd)
      (fun d hd => natDigitsAux_lt_ten _ _ d hd) h
  have ra := digitsVal_natDigitsAux (a + 1) a (by omega)
  have rb := digitsVal_natDigitsAux (b + 1) b (by omega)
  calc a = digitsVal (natDigits a) := ra.symm
    _ = digitsVal (natDigits b) := by rw [hdig]
    _ = b := rb

/-- Concatenation acts on the underlying character lists. -/
theorem strAppend_data (s t : String) : (s ++ t).data = s.data ++ t.data := by
  cases s
  cases t
  rfl

/-- The suffixed candidates `base_j` are pairwise distinct. -/
theorem suffixCand_inj (base : String) :
    Function.Injective fun j : Nat => base ++ "_" ++ pyStr j := by
  intro j k h
  have hdata := congrArg String.data h
  rw [strAppend_data, strAppend_data] at hdata
  exact pyStr_inj j k (List.append_cancel_left hdata)

/-- If some candidate in the fuel window is free, the loop returns the
first free candidate. -/
theorem uniquifyGo_spec (base : String) (keys : List String) :
    ∀ fuel counter : Nat,
      (∃ j, counter ≤ j ∧ j < counter + fuel ∧ (base ++ "_" ++ pyStr j) ∉ keys) →
      ∃ k, counter ≤ k ∧ (base ++ "_" ++ pyStr k) ∉ keys ∧
        (∀ j, counter ≤ j → j < k → (base ++ "_" ++ pyStr j) ∈ keys) ∧
        uniquifyGo base keys counter fuel = base ++ "_" ++ pyStr k := by
  intro fuel
  induction fuel with
  | zero =>
    intro counter h
    obtain ⟨j, h1, h2, _⟩ := h
    omega
  | succ f ih =>
    intro counter hex
    by_cases hc : (base ++ "_" ++ pyStr counter) ∈ keys
    · obtain ⟨j, hj1, hj2, hj3⟩ := hex
      have hjc : counter + 1 ≤ j := by
        rcases Nat.eq_or_lt_of_le hj1 with he | hl
        · exact absurd hc (he ▸ hj3)
        · omega
      obtain ⟨k, hk1, hk2, hk3, hk4⟩ := ih (counter + 1) ⟨j, hjc, by omega, hj3⟩
      refine ⟨k, by omega, hk2, ?_, ?_⟩
      · intro i hi1 hi2
        rcases Nat.eq_or_lt_of_le hi1 with he | hl
        · rw [← he]
          exact hc
        · exact hk3 i hl hi2
      · unfold uniquifyGo
        rw [if_pos hc]
        exact hk4
    · refine ⟨counter, Nat.le_refl _, hc, ?_, ?_⟩
      · intro i hi1 hi2
        omega
      · unfold uniquifyGo
        rw [if_neg hc]

/-- Pigeonhole: among `keys.length + 1` distinct suffixed candidates one is
not a key. -/
theorem exists_free_suffix (base : String) (keys : List String) :
    ∃ j, 1 ≤ j ∧ j < 1 + (keys.length + 1) ∧
      (base ++ "_" ++ pyStr j) ∉ keys := by
  by_contra hcon
  push_neg at hcon
  have hsub : ∀ x ∈ (List.range' 1 (keys.length + 1)).map
      (fun j => base ++ "_" ++ pyStr j), x ∈ keys := by
    intro x hx
    obtain ⟨j, hj, rfl⟩ := List.mem_map.mp hx
    have hjr := List.mem_range'_1.mp hj
    exact hcon j hjr.1 (by omega)
  have hnd : ((List.range' 1 (keys.length + 1)).map
      (fun j => base ++ "_" ++ pyStr j)).Nodup :=
    List.Nodup.map (suffixCand_inj base) (List.nodup_range' 1 (keys.length + 1))
  have h1 := List.toFinset_card_of_nodup hnd
  have h2 : ((List.range' 1 (keys.length + 1)).map
      (fun j => base ++ "_" ++ pyStr j)).toFinset ⊆ keys.toFinset := by
    intro x hx
    rw [List.mem_toFinset] at hx ⊢
    exact hsub x hx
  have h3 := Finset.card_le_card h2
  have h4 := List.toFinset_card_le (l := keys)
  have h5 : ((List.range' 1 (keys.length + 1)).map
      (fun j => base ++ "_" ++ pyStr j)).length = keys.length + 1 := by
    simp
  omega

/-- Characterization of `uniquifyId`: the base itself when free, otherwise
the first free suffixed candidate. -/
theorem uniquifyId_spec (base : String) (keys : List String) :
    (base ∉ keys → uniquifyId base keys = base) ∧
    (base ∈ keys → ∃ k, 1 ≤ k ∧
      uniquifyId base keys = base ++ "_" ++ pyStr k ∧
      (base ++ "_" ++ pyStr k) ∉ keys ∧
      ∀ j, 1 ≤ j → j < k → (base ++ "_" ++ pyStr j) ∈ keys) := by
  constructor
  · intro h
    unfold uniquifyId
    rw [if_neg h]
  · intro h
    obtain ⟨j, hj1, hj2, hj3⟩ := exists_free_suffix base keys
    obtain ⟨k, hk1, hk2, hk3, hk4⟩ :=
      uniquifyGo_spec base keys (keys.length + 1) 1 ⟨j, hj1, by omega, hj3⟩
    refine ⟨k, hk1, ?_, hk2, hk3⟩
    unfold uniquifyId
    rw [if_pos h]
    exact hk4

/-- The chosen id is never an existing key: no record is overwritten. -/
theorem uniquifyId_not_mem (base : String) (keys : List String) :
    uniquifyId base keys ∉ keys := by
  by_cases h : base ∈ keys
  · obtain ⟨k, _, hk2, hk3, _⟩ := (uniquifyId_spec base keys).2 h
    rw [hk2]
    exact hk3
  · rw [(uniquifyId_spec base keys).1 h]
    exact h

/-! ## Parser lemmas: the scan replays the entry outcomes -/
/-- A prefix of a list is a prefix of any extension. -/
theorem isPrefixL_append (k a b : List Char) (h : isPrefixL k a = true) :
    isPrefixL k (a ++ b) = true := by
  induction k generalizing a with
  | nil => rfl
  | cons c cs ih =>
    cases a with
    | nil => cases h
    | cons x xs =>
      simp only [isPrefixL, List.cons_append, Bool.and_eq_true] at h ⊢
      exact ⟨h.1, ih xs h.2⟩

/-- Committing a well-formed entry appends exactly one record whose id is
not an existing key, bumps the processed count and leaves the skipped count
unchanged. -/
theorem commitEntry_of_wf (provider : Provider) (acc url : String)
    (n : List (String × StreamRec String)) (p s : Nat)
    (h : isPrefixL "#EXTINF:-1".toList acc.toList = true) :
    ∃ kv : String × StreamRec String,
      commitEntry provider acc url n p s = (n ++ [kv], p + 1, s) ∧
      kv.1 ∉ n.map Prod.fst := by
  unfold commitEntry parse_extinf_line
  rw [h]
  simp only [Bool.not_true, Bool.false_eq_true, if_false]
  exact ⟨_, rfl, uniquifyId_not_mem _ _⟩

/-- Every outcome of a scan is well-formed: collected payloads start with
the entry marker. -/
theorem specOutcomesAux_wf :
    ∀ (lines : List String) (mode : Option (List Char)),
      (∀ acc, mode = some acc → isPrefixL "#EXTINF:-1".toList acc = true) →
      ∀ o ∈ specOutcomesAux lines mode, outcomeWf o := by
  intro lines
  induction lines with
  | nil =>
    intro mode hmode o ho
    cases mode with
    | none => cases ho
    | some acc =>
      simp only [specOutcomesAux, List.mem_singleton] at ho
      subst ho
      trivial
  | cons l ls ih =>
    intro mode hmode o ho
    cases mode with
    | none =>
      simp only [specOutcomesAux] at ho
      by_cases h1 : (pyStrip l.toList).isEmpty
      · rw [if_pos h1] at ho
        exact ih none (fun a ha => by cases ha) o ho
      · rw [if_neg h1] at ho
        by_cases h2 : isPrefixL "#EXTINF:-1".toList (pyStrip l.toList) = true
        · rw [if_pos h2] at ho
          exact ih (some (pyStrip l.toList))
            (fun a ha => by cases ha; exact h2) o ho
        · rw [if_neg h2] at ho
          exact ih none (fun a ha => by cases ha) o ho
    | some acc =>
      have hacc := hmode acc rfl
      simp only [specOutcomesAux] at ho
      by_cases h1 : (pyStrip l.toList).isEmpty
      · rw [if_pos h1] at ho
        exact ih (some acc) (fun a ha => by cases ha; exact hacc) o ho
      · rw [if_neg h1] at ho
        by_cases h2 : isPrefixL "http".toList (pyStrip l.toList) = true
        · rw [if_pos h2] at ho
          rcases List.mem_cons.mp ho with rfl | hrest
          · exact hacc
          · exact ih none (fun a ha => by cases ha) o hrest
        · rw [if_neg h2] at ho
          by_cases h3 : isPrefixL "#EXTINF:-1".toList (pyStrip l.toList) = true
          · rw [if_pos h3] at ho
            rcases List.mem_cons.mp ho with rfl | hrest
            · trivial
            · exact ih (some (pyStrip l.toList))
                (fun a ha => by cases ha; exact h3) o hrest
          · rw [if_neg h3] at ho
            by_cases h4 : isPrefixL "#".toList (pyStrip l.toList) = true
            · rw [if_pos h4] at ho
              rcases List.mem_cons.mp ho with rfl | hrest
              · trivial
              · exact ih none (fun a ha => by cases ha) o hrest
            · rw [if_neg h4] at ho
              exact ih (some (acc ++ ' ' :: pyStrip l.toList))
                (fun a ha => by
                  cases ha
                  exact isPrefixL_append _ _ _ hacc) o ho

/-- Replaying well-formed outcomes: the skipped count counts exactly the
malformed outcomes, the processed count and the record count grow by
exactly the committed outcomes, and the record keys stay free of
duplicates. -/
theorem applyOutcomes_spec (provider : Provider) :
    ∀ (os : List EntryOutcome) (n : List (String × StreamRec String))
      (p s : Nat), (∀ o ∈ os, outcomeWf o) → (n.map Prod.fst).Nodup →
      (applyOutcomes provider os n p s).2.2 = s + os.count .malformed ∧
      (applyOutcomes provider os n p s).2.1 =
        p + (os.length - os.count .malformed) ∧
      (applyOutcomes provider os n p s).1.length =
        n.length + (os.length - os.count .malformed) ∧
      ((applyOutcomes provider os n p s).1.map Prod.fst).Nodup := by
  intro os
  induction os with
  | nil =>
    intro n p s _ hnd
    simp [applyOutcomes, hnd]
  | cons o os ih =>
    intro n p s hwf hnd
    have hcle : os.count .malformed ≤ os.length := List.count_le_length _ _
    cases o with
    | malformed =>
      simp only [applyOutcomes]
      obtain ⟨h1, h2, h3, h4⟩ := ih n p (s + 1)
        (fun o ho => hwf o (List.mem_cons_of_mem _ ho)) hnd
      refine ⟨?_, ?_, ?_, h4⟩
      · rw [h1]
        simp [List.count_cons]
        try omega
      · rw [h2]
        simp [List.count_cons]
        try omega
      · rw [h3]
        simp [List.count_cons]
        try omega
    | committed acc url =>
      have hw : outcomeWf (.committed acc url) := hwf _ (List.mem_cons_self _ _)
      obtain ⟨kv, hc, hni⟩ := commitEntry_of_wf provider acc url n p s hw
      simp only [applyOutcomes, hc]
      have hnd2 : ((n ++ [kv]).map Prod.fst).Nodup := by
        rw [List.map_append]
        simp [List.nodup_append, hnd, hni]
      obtain ⟨h1, h2, h3, h4⟩ := ih (n ++ [kv]) (p + 1) s
        (fun o ho => hwf o (List.mem_cons_of_mem _ ho)) hnd2
      refine ⟨?_, ?_, ?_, h4⟩
      · rw [h1]
        simp [List.count_cons]
      · rw [h2]
        simp [List.count_cons]
        omega
      · rw [h3]
        simp [List.count_cons]
        omega

/-- The fused scan is the replay of its entry outcomes. -/
theorem parseScanAux_eq_apply (provider : Provider) :
    ∀ (lines : List String) (mode : Option (List Char))
      (n : List (String × StreamRec String)) (p s : Nat),
      parseScanAux provider lines mode n p s =
        applyOutcomes provider (specOutcomesAux lines mode) n p s := by
  intro lines
  induction lines with
  | nil =>
    intro mode n p s
    cases mode <;> rfl
  | cons l ls ih =>
    intro mode n p s
    cases mode with
    | none =>
      simp only [parseScanAux, specOutcomesAux]
      by_cases h1 : (pyStrip l.toList).isEmpty
      · rw [if_pos h1, if_pos h1]
        exact ih none n p s
      · rw [if_neg h1, if_neg h1]
        by_cases h2 : isPrefixL "#EXTINF:-1".toList (pyStrip l.toList) = true
        · rw [if_pos h2, if_pos h2]
          exact ih (some (pyStrip l.toList)) n p s
        · rw [if_neg h2, if_neg h2]
          exact ih none n p s
    | some acc =>
      simp only [parseScanAux, specOutcomesAux]
      by_cases h1 : (pyStrip l.toList).isEmpty
      · rw [if_pos h1, if_pos h1]
        exact ih (some acc) n p s
      · rw [if_neg h1, if_neg h1]
        by_cases h2 : isPrefixL "http".toList (pyStrip l.toList) = true
        · rw [if_pos h2, if_pos h2]
          simp only [applyOutcomes]
          exact ih none _ _ _
        · rw [if_neg h2, if_neg h2]
          by_cases h3 : isPrefixL "#EXTINF:-1".toList (pyStrip l.toList) = true
          · rw [if_pos h3, if_pos h3]
            simp only [applyOutcomes]
            exact ih (some (pyStrip l.toList)) n p (s + 1)
          · rw [if_neg h3, if_neg h3]
            by_cases h4 : isPrefixL "#".toList (pyStrip l.toList) = true
            · rw [if_pos h4, if_pos h4]
              simp only [applyOutcomes]
              exact ih none n p (s + 1)
            · rw [if_neg h4, if_neg h4]
              exact ih (some (acc ++ ' ' :: pyStrip l.toList)) n p s

/-! ## Claim theorems: C6 and C7 -/
/-- C6 counterexample: an entry whose name `***` strips to the empty
canonical id receives the id `stream_0`, not the stripped-lowered name. -/
theorem parse_emptyName_counterexample :
    (parse_m3u_scan m3uProvider c6StarLines).1.map Prod.fst = ["stream_0"] ∧
    canonId "***" = "" ∧
    ("stream_0" : String) ≠ "" := by
  refine ⟨by decide, rfl, by decide⟩

/-- C6 (amended): within one playlist parse every successfully parsed entry
appends its own record — the key list stays duplicate-free and its length
equals the processed count — under the id rule: the canonical id is the
name with non-alphanumerics stripped and lowercased, or `stream_<k>` when
that strips to empty; a taken id receives the first free suffixed id
(`_1`, `_2`, ...), which is never an existing key, so no record overwrites
an earlier one.  Concretely, two entries named `CNN` and `CNN!` produce the
ids `cnn` and `cnn_1`. -/
theorem parse_unique_suffixed_ids :
    (∀ (provider : Provider) (lines : List String),
      ((parse_m3u_scan provider lines).1.map Prod.fst).Nodup ∧
      (parse_m3u_scan provider lines).1.length =
        (parse_m3u_scan provider lines).2.1) ∧
    (∀ (base : String) (keys : List String), uniquifyId base keys ∉ keys) ∧
    (∀ (base : String) (keys : List String),
      base ∉ keys → uniquifyId base keys = base) ∧
    (∀ (base : String) (keys : List String), base ∈ keys → ∃ k, 1 ≤ k ∧
      uniquifyId base keys = base ++ "_" ++ pyStr k ∧
      (base ++ "_" ++ pyStr k) ∉ keys ∧
      ∀ j, 1 ≤ j → j < k → (base ++ "_" ++ pyStr j) ∈ keys) ∧
    (parse_m3u_scan m3uProvider c6Lines).1.map Prod.fst = ["cnn", "cnn_1"] := by
  refine ⟨?_, uniquifyId_not_mem,
    fun base keys => (uniquifyId_spec base keys).1,
    fun base keys => (uniquifyId_spec base keys).2, by decide⟩
  intro provider lines
  have heq := parseScanAux_eq_apply provider lines none [] 0 0
  have hwf := specOutcomesAux_wf lines none (fun acc h => by cases h)
  obtain ⟨h1, h2, h3, h4⟩ :=
    applyOutcomes_spec provider (specOutcomesAux lines none) [] 0 0 hwf
      (by simp)
  constructor
  · show ((parseScanAux provider lines none [] 0 0).1.map Prod.fst).Nodup
    rw [heq]
    exact h4
  · show (parseScanAux provider lines none [] 0 0).1.length =
      (parseScanAux provider lines none [] 0 0).2.1
    rw [heq, h3, h2]
    simp

/-- Witness for C6's amended theorem at concrete uniquifier inputs. -/
theorem parse_unique_suffixed_ids_witness :
    uniquifyId "cnn" ["news"] = "cnn" ∧ "cnn" ∈ ["cnn"] ∧
    ∃ k, 1 ≤ k ∧ uniquifyId "cnn" ["cnn"] = "cnn" ++ "_" ++ pyStr k ∧
      ("cnn" ++ "_" ++ pyStr k) ∉ ["cnn"] ∧
      ∀ j, 1 ≤ j → j < k → ("cnn" ++ "_" ++ pyStr j) ∈ ["cnn"] :=
  ⟨parse_unique_suffixed_ids.2.2.1 "cnn" ["news"] (by decide), by decide,
   parse_unique_suffixed_ids.2.2.2.1 "cnn" ["cnn"] (by decide)⟩

/-- C7: the skipped count of a playlist scan equals the number of entries
whose continuation ended without an http URL line — another entry marker,
another comment line, or the end of input — and such entries contribute no
record: the record count equals the number of URL-committed entries.
Concretely, the `c7Lines` playlist has three malformed entries and the scan
skips exactly 3, keeping only the one committed record. -/
theorem parse_malformed_skipped :
    (∀ (provider : Provider) (lines : List String),
      (parse_m3u_scan provider lines).2.2 =
        (specEntryOutcomes lines).count .malformed ∧
      (parse_m3u_scan provider lines).1.length =
        (specEntryOutcomes lines).length -
          (specEntryOutcomes lines).count .malformed) ∧
    specEntryOutcomes c7Lines =
      [.malformed, .committed "#EXTINF:-1 ,B" "http://u/x.ts",
       .malformed, .malformed] ∧
    (parse_m3u_scan m3uProvider c7Lines).2.2 = 3 ∧
    (parse_m3u_scan m3uProvider c7Lines).1.map Prod.fst = ["b"] := by
  refine ⟨?_, by decide, by decide, by decide⟩
  intro provider lines
  have heq := parseScanAux_eq_apply provider lines none [] 0 0
  have hwf := specOutcomesAux_wf lines none (fun acc h => by cases h)
  obtain ⟨h1, h2, h3, h4⟩ :=
    applyOutcomes_spec provider (specOutcomesAux lines none) [] 0 0 hwf
      (by simp)
  constructor
  · show (parseScanAux provider lines none [] 0 0).2.2 = _
    rw [heq, h1]
    simp [specEntryOutcomes]
  · show (parseScanAux provider lines none [] 0 0).1.length = _
    rw [heq, h3]
    simp [specEntryOutcomes]

end KptvSync
